import Mathlib

/-!
Verification of the backend service core (auth middleware, JWKS cache,
streaming chat coordinator, job scheduler helpers) against its
natural-language specification.  Each Python function relevant to a claim
is shallowly embedded as an executable Lean definition; theorems settle
the claims.
-/

/-! ### Python string primitives

`str.strip()` removes leading and trailing Unicode whitespace.  `isPyWs`
enumerates the code points Python's `str.isspace` (and hence `strip`)
treats as whitespace. -/

/-- Whitespace predicate used by Python `str.strip()`. -/
def isPyWs (c : Char) : Bool :=
  let n := c.val.toNat
  n = 0x20 || (0x9 ≤ n && n ≤ 0xd) || (0x1c ≤ n && n ≤ 0x1f) ||
  n = 0x85 || n = 0xa0 || n = 0x1680 || (0x2000 ≤ n && n ≤ 0x200a) ||
  n = 0x2028 || n = 0x2029 || n = 0x202f || n = 0x205f || n = 0x3000

/-- Python `str.strip()` on a list of characters: drop whitespace from the
front, then from the back. -/
def pyStripList (l : List Char) : List Char :=
  ((l.dropWhile isPyWs).reverse.dropWhile isPyWs).reverse

/-- Python `str.strip()` on a `String`. -/
def pyStrip (s : String) : String :=
  ⟨pyStripList s.data⟩

/-! ### `ConversationService.generate_conversation_title`
(`services/conversation_service.py`), embedded on `List Char` so that the
slicing `title[:47]` is `List.take 47`.  The Python source:

    title = first_message.strip()
    if len(title) > 50: title = title[:47] + "..."
    if not title: title = "New Conversation"
    if len(title) > 255: title = title[:252] + "..."
    return title
-/

/-- Core of `generate_conversation_title`, on character lists. -/
def titleList (l : List Char) : List Char :=
  let t := pyStripList l
  let t := if 50 < t.length then t.take 47 ++ ['.', '.', '.'] else t
  let t := if t = [] then "New Conversation".data else t
  if 255 < t.length then t.take 252 ++ ['.', '.', '.'] else t

/-- `ConversationService.generate_conversation_title`. -/
def generate_conversation_title (first_message : String) : String :=
  ⟨titleList first_message.data⟩

/-! ### `LogCapture.get_logs` (`utils/job_utils.py`)

    logs = []
    if stdout_content: logs.append(f"STDOUT:\n{stdout_content}")
    if stderr_content: logs.append(f"STDERR:\n{stderr_content}")
    if log_content: logs.append(f"LOGS:\n{log_content}")
    return "\n\n".join(logs) if logs else ""
-/

/-- Python `sep.join(parts)`. -/
def pyJoin (sep : String) : List String → String
  | [] => ""
  | [x] => x
  | x :: xs => x ++ sep ++ pyJoin sep xs

/-- `LogCapture.get_logs`, as a function of the three captured buffers. -/
def get_logs (stdout_content stderr_content log_content : String) : String :=
  let logs : List String :=
    (if stdout_content = "" then [] else ["STDOUT:\n" ++ stdout_content]) ++
    (if stderr_content = "" then [] else ["STDERR:\n" ++ stderr_content]) ++
    (if log_content = "" then [] else ["LOGS:\n" ++ log_content])
  if logs = [] then "" else pyJoin "\n\n" logs

/-- The behaviour claimed by the spec for `get_logs`: the sections, in
order, joined by blank lines, empty sections omitted, empty string when
all are empty.  Written as an explicit case split so that comparing it
with `get_logs` is a real check of the join logic. -/
def getLogsSpecForm (s e l : String) : String :=
  if s = "" then
    if e = "" then
      if l = "" then "" else "LOGS:\n" ++ l
    else
      if l = "" then "STDERR:\n" ++ e
      else "STDERR:\n" ++ e ++ "\n\n" ++ ("LOGS:\n" ++ l)
  else
    if e = "" then
      if l = "" then "STDOUT:\n" ++ s
      else "STDOUT:\n" ++ s ++ "\n\n" ++ ("LOGS:\n" ++ l)
    else
      if l = "" then "STDOUT:\n" ++ s ++ "\n\n" ++ ("STDERR:\n" ++ e)
      else "STDOUT:\n" ++ s ++ "\n\n" ++ ("STDERR:\n" ++ e ++ "\n\n" ++ ("LOGS:\n" ++ l))

/-! ### Chat message store (`routers/chat.py` message persistence)

Messages of a conversation, ordered by `created_at` ascending, as the
service's `get_conversation_messages` returns them.  Timestamps are
rational seconds; ids are abstract naturals. -/

/-- A stored chat message row. -/
structure StoredMsg where
  id : Nat
  role : String
  content : String
  model : Option String
  createdAt : ℚ
  deriving Repr, DecidableEq

/-- A message in an incoming chat request. -/
structure ReqMsg where
  role : String
  content : String
  deriving Repr, DecidableEq

/-- The last message with role `user` in the request, searching from the
end (`for msg in reversed(chat_request.messages)`). -/
def lastUserMsg (msgs : List ReqMsg) : Option ReqMsg :=
  msgs.reverse.find? (fun m => m.role = "user")

/-- `save_user_messages` (`routers/chat.py`).  `lockOk` models
`get_conversation_for_update` succeeding (on `AppException` the function
returns `None` without inserting).  Returns the id handed back to the
caller and the resulting message list of the conversation. -/
def save_user_messages (conversationId : Option Nat) (lockOk : Bool)
    (reqMessages : List ReqMsg) (existing : List StoredMsg)
    (now : ℚ) (freshId : Nat) : Option Nat × List StoredMsg :=
  match conversationId with
  | none => (none, existing)
  | some _ =>
    if !lockOk then (none, existing)
    else
      match lastUserMsg reqMessages with
      | none => (none, existing)
      | some m =>
        let userMessages := existing.filter (fun msg => msg.role = "user")
        match userMessages.getLast? with
        | some lastSaved =>
          if lastSaved.content = m.content ∧ now - lastSaved.createdAt < 5 then
            (some lastSaved.id, existing)
          else
            (some freshId, existing ++ [⟨freshId, m.role, m.content, none, now⟩])
        | none =>
          (some freshId, existing ++ [⟨freshId, m.role, m.content, none, now⟩])

/-- Predicate of the duplicate check in `save_assistant_message_if_new`:
an existing assistant message with identical content and model. -/
def assistantDup (assistantContent : String) (modelName : String)
    (msg : StoredMsg) : Bool :=
  msg.role = "assistant" && msg.content = assistantContent &&
    msg.model = some modelName

/-- `save_assistant_message_if_new` (`routers/chat.py`).  The Python scans
`existing_messages` in order and returns the first duplicate's id;
otherwise it inserts.  `lockOk` as in `save_user_messages`. -/
def save_assistant_message_if_new (conversationId : Option Nat) (lockOk : Bool)
    (assistantContent : String) (modelName : String)
    (existing : List StoredMsg) (now : ℚ) (freshId : Nat) :
    Option Nat × List StoredMsg :=
  if conversationId = none ∨ assistantContent = "" then (none, existing)
  else if !lockOk then (none, existing)
  else
    match existing.find? (assistantDup assistantContent modelName) with
    | some msg => (some msg.id, existing)
    | none =>
      (some freshId,
       existing ++ [⟨freshId, "assistant", assistantContent, some modelName, now⟩])

/-- At most one assistant message per (content, model) tuple. -/
def atMostOneAssistantPer (l : List StoredMsg) : Prop :=
  ∀ c m, (l.countP (fun msg =>
    msg.role = "assistant" && msg.content = c && msg.model = m)) ≤ 1

/-! ### The streaming generator (`generate_streaming_response` and its
helpers in `routers/chat.py`)

An upstream chunk from `chat_service.stream_chat` either does not start
with `data: `, has a blank payload, fails JSON parsing (logged and
skipped), or parses to `{content, thinking, done}`.  The generator's SSE
output is modelled as a list of frames. -/

/-- One upstream SSE chunk, after the generator's parsing stage. -/
inductive UpChunk
  | notData
  | blank
  | malformed
  | chunk (content : String) (thinking : Option String) (done : Bool)
  deriving Repr, DecidableEq

/-- One frame written to the client. -/
inductive Frame
  | thinkingC (t : String) (chunkId : Nat)
  | contentC (c : String) (chunkId : Nat) (model : String)
  | messageIds (userMessageId : Option Nat) (assistantMessageId : Option Nat)
  | finalC (chunkId : Nat) (model : String)
  | doneMark
  deriving Repr, DecidableEq

/-- `StreamState` (`routers/chat.py`). -/
structure SState where
  assistantContent : String := ""
  chunkId : Nat := 0
  assistantMessageId : Option Nat := none
  sdone : Bool := false
  deriving Repr, DecidableEq

/-- Python truthiness of `content and content.strip()`. -/
def contentTruthy (s : String) : Bool :=
  !(s.data.all isPyWs)

/-- Python truthiness of the optional `thinking` field. -/
def thinkingTruthy : Option String → Bool
  | none => false
  | some s => !(s = "")

/-- `_handle_stream_completion`: save the assistant message if needed,
then emit the optional `:message_ids` trailer, the `finish_reason=stop`
chunk and `data: [DONE]`.  `save` is the outcome of
`save_assistant_message_if_new` for the accumulated content. -/
def handleStreamCompletion (conv : Bool) (save : String → Option Nat)
    (userMessageId : Option Nat) (st : SState) (model : String) :
    SState × List Frame :=
  let st :=
    if conv && !(st.assistantContent = "") && st.assistantMessageId = none then
      { st with assistantMessageId := save st.assistantContent }
    else st
  let trailer :=
    if userMessageId.isSome || st.assistantMessageId.isSome then
      [Frame.messageIds userMessageId st.assistantMessageId]
    else []
  (st, trailer ++ [Frame.finalC st.chunkId model, Frame.doneMark])

/-- Processing of one parsed chunk: the generator first accumulates
content into the assistant buffer, then `_process_chunk_data` emits the
thinking comment and the content chunk and, on `done`, runs
`_handle_stream_completion`. -/
def chunkAccum (st : SState) (content : String) : SState :=
  if contentTruthy content then
    { st with assistantContent := st.assistantContent ++ content }
  else st

def chunkThinkFrames (st : SState) (thinking : Option String) : List Frame :=
  if thinkingTruthy thinking then
    [Frame.thinkingC (thinking.getD "") st.chunkId]
  else []

def chunkContentStep (st : SState) (content : String) (model : String) :
    SState × List Frame :=
  if contentTruthy content then
    ({ st with chunkId := st.chunkId + 1 },
     [Frame.contentC content st.chunkId model])
  else (st, [])

def processChunk (conv : Bool) (save : String → Option Nat)
    (userMessageId : Option Nat) (model : String)
    (st : SState) : UpChunk → SState × List Frame
  | .notData => (st, [])
  | .blank => (st, [])
  | .malformed => (st, [])
  | .chunk content thinking false =>
    let st1 := chunkAccum st content
    let fThink := chunkThinkFrames st1 thinking
    let stepped := chunkContentStep st1 content model
    (stepped.1, fThink ++ stepped.2)
  | .chunk content thinking true =>
    let st1 := chunkAccum st content
    let fThink := chunkThinkFrames st1 thinking
    let stepped := chunkContentStep st1 content model
    let fin := handleStreamCompletion conv save userMessageId
      { stepped.1 with sdone := true } model
    (fin.1, fThink ++ stepped.2 ++ fin.2)

/-- `_finalize_stream`: after upstream EOF without `done`, save the
assistant message if there is unsaved content, and emit only the optional
`:message_ids` comment — never a final chunk or `data: [DONE]`. -/
def finalizeStream (conv : Bool) (save : String → Option Nat)
    (userMessageId : Option Nat) (st : SState) : List Frame :=
  let st :=
    if conv && !(st.assistantContent = "") && st.assistantMessageId = none then
      { st with assistantMessageId := save st.assistantContent }
    else st
  if (userMessageId.isSome || st.assistantMessageId.isSome) && !st.sdone then
    [Frame.messageIds userMessageId st.assistantMessageId]
  else []

/-- The generator loop of `generate_streaming_response`: process chunks in
order, break after the first `done` (the post-loop finalizer emits nothing
once `state.done` is set). -/
def runStream (conv : Bool) (save : String → Option Nat)
    (userMessageId : Option Nat) (model : String) :
    SState → List UpChunk → List Frame
  | st, [] => finalizeStream conv save userMessageId st
  | st, c :: rest =>
    let step := processChunk conv save userMessageId model st c
    if step.1.sdone then step.2
    else step.2 ++ runStream conv save userMessageId model step.1 rest

/-- `generate_streaming_response`, as the full SSE frame list produced for
a given upstream chunk sequence. -/
def generate_streaming_response (conv : Bool) (save : String → Option Nat)
    (userMessageId : Option Nat) (model : String)
    (chunks : List UpChunk) : List Frame :=
  runStream conv save userMessageId model ⟨"", 0, none, false⟩ chunks

/-- Does this upstream chunk carry `done=true`? -/
def isDoneChunk : UpChunk → Bool
  | .chunk _ _ d => d
  | _ => false

/-- Whether some upstream chunk carries `done=true`. -/
def hasDone (chunks : List UpChunk) : Bool :=
  chunks.any isDoneChunk

/-- Is this frame the `finish_reason=stop` chunk? -/
def isFinalFrame : Frame → Bool
  | .finalC _ _ => true
  | _ => false

/-- Is this frame the `data: [DONE]` marker? -/
def isDoneFrame : Frame → Bool
  | .doneMark => true
  | _ => false

/-- The output ends with a `finish_reason=stop` chunk immediately followed
by `data: [DONE]`. -/
def endsWithStopDone (l : List Frame) : Bool :=
  match l.reverse with
  | a :: b :: _ => isDoneFrame a && isFinalFrame b
  | _ => false

/-- No terminator frames (`finish_reason=stop` chunk or `data: [DONE]`)
appear in the list. -/
def noTermFrames (l : List Frame) : Bool :=
  l.all fun f => !isFinalFrame f && !isDoneFrame f

/-! ### Auth middleware (`core/middleware.py`, `JWTAuthMiddleware.dispatch`)

Requests carry raw header values; the outcome of the two external
verification calls is an input of the model.  A `.response` result means
the middleware answered without invoking the route handler; `.next`
means `call_next` ran. -/

/-- Public paths, `PUBLIC_ROUTES` in `core/config.py`. -/
def PUBLIC_ROUTES : List String :=
  ["/", "/docs", "/openapi.json", "/redoc", "/health"]

/-- `ErrorMessages.AUTH_HEADER_MISSING`. -/
def AUTH_HEADER_MISSING : String := "Authorization header missing"

/-- `ErrorMessages.USER_ID_NOT_FOUND`. -/
def USER_ID_NOT_FOUND : String := "User ID not found in token"

/-- Incoming HTTP request as the middleware sees it. -/
structure HttpRequest where
  method : String
  path : String
  xApiKey : Option String
  authorization : Option String
  requestId : String
  deriving Repr, DecidableEq

/-- Outcome of `verify_api_key` / `verify_token_string` as observed by the
middleware: success carries the user id the middleware later extracts
from the stored data (`api_key_data.get("user_id")`, or
`token_data.get("sub") or token_data.get("id")`); failure carries the
status code and detail of the error response. -/
inductive VerifyCallResult
  | ok (extractedUserId : Option String)
  | fail (statusCode : Nat) (detail : String)
  deriving Repr, DecidableEq

/-- Result of `dispatch`: an early JSON response, or the handler call. -/
inductive DispatchResult
  | response (statusCode : Nat) (body : List (String × String))
  | next (userId : Option String)
  deriving Repr, DecidableEq

/-- Does `isPre pat l` hold, i.e. is `pat` an initial segment of `l`? -/
def isPre : List Char → List Char → Bool
  | [], _ => true
  | _ :: _, [] => false
  | p :: ps, c :: cs => p = c && isPre ps cs

/-- Python `str.replace(pat, "")`: delete every non-overlapping,
left-to-right occurrence of `pat`. -/
def pyDeleteAll (pat : List Char) : List Char → List Char
  | [] => []
  | c :: rest =>
    if h : pat ≠ [] ∧ isPre pat (c :: rest) then
      pyDeleteAll pat ((c :: rest).drop pat.length)
    else
      c :: pyDeleteAll pat rest
termination_by l => l.length
decreasing_by
  · simp only [List.length_drop]
    have hp : 0 < pat.length := List.length_pos.mpr h.1
    simp only [List.length_cons]
    omega
  · simp

/-- `authorization.replace("Bearer ", "").strip()`. -/
def extractBearerToken (a : String) : String :=
  pyStrip ⟨pyDeleteAll "Bearer ".data a.data⟩

/-- Python truthiness of an optional string (`None` and `""` are falsy). -/
def optStrTruthy : Option String → Bool
  | none => false
  | some s => !(s = "")

/-- `JWTAuthMiddleware.dispatch`.  `apiVerify` and `jwtVerify` are the
outcomes of the external verification calls, consulted only when the
corresponding header is present and non-blank. -/
def dispatch (req : HttpRequest)
    (apiVerify : VerifyCallResult) (jwtVerify : VerifyCallResult) :
    DispatchResult :=
  if req.method = "OPTIONS" then .next none
  else if req.path ∈ PUBLIC_ROUTES then .next none
  else
    -- API key branch: `if api_key:` then `api_key = api_key.strip()`,
    -- `if api_key:` again.
    let apiAttempt : Option VerifyCallResult :=
      match req.xApiKey with
      | some k =>
        if !(k = "") && !(pyStrip k = "") then some apiVerify else none
      | none => none
    match apiAttempt with
    | some (.fail code detail) =>
      .response code [("detail", detail), ("request_id", req.requestId)]
    | _ =>
      let apiData : Option (Option String) :=
        match apiAttempt with
        | some (.ok uid) => some uid
        | _ => none
      -- JWT branch: `if authorization and authorization.startswith("Bearer ")`
      -- then extract the token and `if token:`.
      let jwtAttempt : Option VerifyCallResult :=
        match req.authorization with
        | some a =>
          if !(a = "") && a.startsWith "Bearer " &&
              !(extractBearerToken a = "") then
            some jwtVerify
          else none
        | none => none
      match jwtAttempt with
      | some (.fail code detail) =>
        .response code [("detail", detail), ("request_id", req.requestId)]
      | _ =>
        let jwtData : Option (Option String) :=
          match jwtAttempt with
          | some (.ok uid) => some uid
          | _ => none
        if apiData = none && jwtData = none then
          .response 401
            [("detail", AUTH_HEADER_MISSING), ("request_id", req.requestId)]
        else
          -- `_extract_user_id`: API-key data wins when both are present.
          let userId : Option String :=
            match apiData with
            | some uid => uid
            | none =>
              match jwtData with
              | some uid => uid
              | none => none
          if optStrTruthy userId then .next userId
          else
            .response 401
              [("detail", USER_ID_NOT_FOUND), ("request_id", req.requestId)]

/-! ### JWKS cache and JWT verification (`core/auth.py`)

The module-level cache is `(_jwks_cache, _cached_kids, _cache_expires_at)`.
A fetched JWKS document is arbitrary JSON: either a JSON object whose
`keys` field is a list of entries, or some non-object value (on which the
Python attribute access `jwks_data.get` raises).  An entry is either a
JSON object with `kid`/`kty`/`crv`/`x` fields or a non-object value. -/

/-- Fields of a JWKS key entry that the code reads. -/
structure JwkEntryData where
  kid : Option String
  kty : String
  crv : String
  x : String
  deriving Repr, DecidableEq

/-- One element of the fetched document's `keys` list. -/
inductive JwksEntry
  | obj (d : JwkEntryData)
  | nonObj
  deriving Repr, DecidableEq

/-- The fetched JWKS document. -/
inductive JwksDoc
  | obj (keys : List JwksEntry)
  | nonObj
  deriving Repr, DecidableEq

/-- Outcome of the HTTP GET against the JWKS URL. -/
inductive FetchOutcome
  | transportErr
  | ok (doc : JwksDoc)
  deriving Repr, DecidableEq

/-- The module-level cache state of `core/auth.py`. -/
structure JwksCacheState where
  cache : Option JwksDoc
  cachedKids : List String
  expiresAt : Option Int
  deriving Repr, DecidableEq

/-- `_is_cache_valid`: false when `_jwks_cache` or `_cache_expires_at`
is `None`, else `now < _cache_expires_at`. -/
def is_cache_valid (st : JwksCacheState) (now : Int) : Bool :=
  match st.cache with
  | none => false
  | some _ =>
    match st.expiresAt with
    | none => false
    | some t => decide (now < t)

/-- `key.get("kid")` filtered through Python truthiness: the kid a key
entry contributes to `_cached_kids`, if any. -/
def kidOf : JwksEntry → Option String
  | .obj d =>
    match d.kid with
    | some s => if s = "" then none else some s
    | none => none
  | .nonObj => none

/-- The set comprehension
`{key.get("kid") for key in jwks_data.get("keys", []) if key.get("kid")}`,
assuming every entry is an object (otherwise the comprehension raises). -/
def extractKids (keys : List JwksEntry) : List String :=
  keys.filterMap kidOf

/-- Does the `keys` list contain only JSON objects?  If not, evaluating
the kid comprehension raises `AttributeError` after `_jwks_cache` has
already been assigned. -/
def entriesWellFormed (keys : List JwksEntry) : Bool :=
  keys.all fun e =>
    match e with
    | .obj _ => true
    | .nonObj => false

/-- The fetch-and-update path of `get_jwks` (the body of its `try`).
`_jwks_cache = jwks_data` is assigned first; only then does the kid
comprehension run (and, on a non-object document or a non-object entry,
raise — leaving `_cached_kids` and `_cache_expires_at` untouched while
`_jwks_cache` already holds the new document).  Returns (result, new
cache state); the `Bool` is `true` because a fetch was attempted. -/
def fetchAndUpdate (now ttl : Int) (st : JwksCacheState) :
    FetchOutcome → Except Unit JwksDoc × JwksCacheState × Bool
  | .transportErr => (.error (), st, true)
  | .ok .nonObj => (.error (), { st with cache := some .nonObj }, true)
  | .ok (.obj keys) =>
    if entriesWellFormed keys then
      (.ok (.obj keys),
       { st with cache := some (.obj keys),
                 cachedKids := extractKids keys,
                 expiresAt := some (now + ttl) }, true)
    else
      (.error (), { st with cache := some (.obj keys) }, true)

/-- `get_jwks(force_refresh)`.  The `Bool` in the result records whether
an HTTP fetch was performed during this call. -/
def get_jwks (force_refresh : Bool) (now ttl : Int) (fetch : FetchOutcome)
    (st : JwksCacheState) :
    Except Unit JwksDoc × JwksCacheState × Bool :=
  match st.cache with
  | some d =>
    if !force_refresh && is_cache_valid st now then (.ok d, st, false)
    else fetchAndUpdate now ttl st fetch
  | none => fetchAndUpdate now ttl st fetch

/-- Scan of the `keys` list in `get_public_key_from_jwks`: first matching
entry wins; a non-object entry encountered before a match raises
`AttributeError`. -/
inductive KeyLookup
  | ok (x : String)
  | keyNotFound
  | attrError
  deriving Repr, DecidableEq

/-- The loop of `get_public_key_from_jwks` over the `keys` list. -/
def scanKeys (kid : String) : List JwksEntry → KeyLookup
  | [] => .keyNotFound
  | .nonObj :: _ => .attrError
  | .obj d :: rest =>
    if d.kid = some kid && d.kty = "OKP" && d.crv = "Ed25519" then .ok d.x
    else scanKeys kid rest

/-- `get_public_key_from_jwks` on the whole document (`jwks.get("keys", [])`
raises on a non-object document). -/
def get_public_key_from_jwks (doc : JwksDoc) (kid : String) : KeyLookup :=
  match doc with
  | .obj keys => scanKeys kid keys
  | .nonObj => .attrError

/-- Result of `verify_token_string`. -/
inductive VerifyResult
  | ok (x : String)
  | errMissingKid
  | errAuth
  | errJwks
  deriving Repr, DecidableEq

/-- `verify_token_string`.  `kid?` is the `kid` of the unverified token
header; `sigOk` abstracts the final `jwt.decode` signature/issuer/audience
check.  Returns (result, new cache state, whether a JWKS fetch ran). -/
def verify_token_string (kid? : Option String) (now ttl : Int)
    (fetch : FetchOutcome) (sigOk : Bool) (st : JwksCacheState) :
    VerifyResult × JwksCacheState × Bool :=
  match kid? with
  | none => (.errMissingKid, st, false)
  | some kid =>
    if kid = "" then (.errMissingKid, st, false)
    else
      let force :=
        !(is_cache_valid st now) ||
          (st.cache.isSome && !(st.cachedKids.contains kid))
      let g := get_jwks force now ttl fetch st
      let res : VerifyResult :=
        match g.1 with
        | .error _ => .errJwks
        | .ok doc =>
          match get_public_key_from_jwks doc kid with
          | .keyNotFound => .errAuth
          | .attrError => .errAuth
          | .ok x => if sigOk then .ok x else .errAuth
      (res, g.2.1, g.2.2)

/-! ### Job scheduling (`core/job_operations.py`, `core/job_persistence.py`)
and the history-writing surface (`services/job_service.py`,
`utils/job_wrapper.py`, `utils/job_listeners.py`,
`utils/job_event_handlers.py`, `models/job_history.py`). -/

/-- `JOB_MISFIRE_GRACE_TIME_SECONDS` (`core/config.py`), default 3600. -/
def JOB_MISFIRE_GRACE_TIME_SECONDS : ℚ := 3600

/-- `JOB_PERSISTENCE_VERIFY_MAX_RETRIES` (`core/config.py`), default 5. -/
def JOB_PERSISTENCE_VERIFY_MAX_RETRIES : Nat := 5

/-- `JOB_PERSISTENCE_VERIFY_RETRY_DELAY_SECONDS` (`core/config.py`),
default 0.2. -/
def JOB_PERSISTENCE_VERIFY_RETRY_DELAY_SECONDS : ℚ := 1 / 5

/-- Which logging branch `_normalize_run_date` takes. -/
inductive NormalizeLog
  | futureOrPresent
  | warnPastBeyondGrace
  | infoPastWithinGrace
  deriving Repr, DecidableEq

/-- `_normalize_run_date` (`core/job_operations.py`): timestamps are UTC
instants in rational seconds (timezone coercion of naive datetimes is the
identity on the instant).  The function never rejects a past date — it
only logs — and returns the date unchanged. -/
def normalize_run_date (run_date : Option ℚ) (now : ℚ) : ℚ × NormalizeLog :=
  match run_date with
  | none => (now + 1, .futureOrPresent)
  | some d =>
    if d < now then
      if now - d > JOB_MISFIRE_GRACE_TIME_SECONDS then
        (d, .warnPastBeyondGrace)
      else (d, .infoPastWithinGrace)
    else (d, .futureOrPresent)

/-- `JobHistoryStatus` (`models/job_history.py`). -/
inductive JobHistoryStatus
  | created
  | running
  | completed
  | failed
  | removed
  | paused
  | resumed
  | misfired
  deriving Repr, DecidableEq

/-- Every way repository code writes a job-history row: the API surface of
`JobService` (`create_job`, `delete_job`, `pause_job_by_id`,
`resume_job_by_id`), `_mark_job_running` in `utils/job_wrapper.py`, and
the APScheduler events.  `setup_job_listeners` registers listeners only
for `EVENT_JOB_EXECUTED` and `EVENT_JOB_ERROR`; a missed fire
(`EVENT_JOB_MISSED`) has no listener. -/
inductive HistoryAction
  | apiCreate (jobId : String)
  | apiRemove (jobId : String)
  | apiPause (jobId : String)
  | apiResume (jobId : String)
  | markRunning (jobId : String)
  | eventExecuted (jobId : String)
  | eventError (jobId : String)
  | eventMissed (jobId : String)
  deriving Repr, DecidableEq

/-- History rows appended for one action. -/
def historyRowsFor : HistoryAction → List (String × JobHistoryStatus)
  | .apiCreate j => [(j, .created)]
  | .apiRemove j => [(j, .removed)]
  | .apiPause j => [(j, .paused)]
  | .apiResume j => [(j, .resumed)]
  | .markRunning j => [(j, .running)]
  | .eventExecuted j => [(j, .completed)]
  | .eventError j => [(j, .failed)]
  | .eventMissed _ => []

/-- The job-history table produced by a sequence of actions
(append-only). -/
def historyOf (actions : List HistoryAction) :
    List (String × JobHistoryStatus) :=
  actions.flatMap historyRowsFor

/-- One attempt of `verify_job_persistence` to read the job back from the
scheduler (`sched.get_job`): found, absent, or an exception (which the
code logs and treats like absent). -/
inductive StoreRead
  | found
  | notFound
  | readErr
  deriving Repr, DecidableEq

/-- The retry loop of `verify_job_persistence`: attempt `i`, then
`i+1`, …, at most `k` attempts, returning whether the job was seen. -/
def verifyLoop (reads : Nat → StoreRead) : Nat → Nat → Bool
  | _, 0 => false
  | i, k + 1 =>
    match reads i with
    | .found => true
    | _ => verifyLoop reads (i + 1) k

/-- `verify_job_persistence` (`core/job_persistence.py`).  `reads i` is
the outcome of the `(i+1)`-th `sched.get_job` call; `dbRead` is the raw
job-store query of `list_all_jobs_from_store` (`none` models the query
raising, which the code logs and treats as absence). -/
def verify_job_persistence (running : Bool) (reads : Nat → StoreRead)
    (dbRead : Option (List String)) (jobId : String)
    (max_retries : Nat) : Except String Unit :=
  if !running then .error "scheduler not running"
  else if verifyLoop reads 0 max_retries then .ok ()
  else
    match dbRead with
    | some ids => if jobId ∈ ids then .ok () else .error "job not persisted"
    | none => .error "job not persisted"

/-! ## Theorems -/

/-! ### Shared lemmas on Python `strip` -/

theorem dropWhileHeadNot {α : Type} (p : α → Bool) :
    ∀ (l : List α) (a : α), (l.dropWhile p).head? = some a → p a = false := by
  intro l
  induction l with
  | nil => intro a h; simp [List.dropWhile] at h
  | cons x xs ih =>
    intro a h
    rw [List.dropWhile_cons] at h
    by_cases hx : p x = true
    · rw [if_pos hx] at h
      exact ih a h
    · rw [if_neg hx] at h
      simp only [List.head?_cons, Option.some.injEq] at h
      subst h
      simpa using hx

theorem dropWhileEqSelf {α : Type} (p : α → Bool) (l : List α)
    (h : ∀ a, l.head? = some a → p a = false) : l.dropWhile p = l := by
  cases l with
  | nil => rfl
  | cons x xs =>
    rw [List.dropWhile_cons, if_neg]
    simp [h x rfl]

theorem pyStripHead (l : List Char) (a : Char)
    (h : (pyStripList l).head? = some a) : isPyWs a = false := by
  unfold pyStripList at h
  set u := l.dropWhile isPyWs with hu
  set m := u.reverse.dropWhile isPyWs with hm
  have hsplit : u.reverse.takeWhile isPyWs ++ m = u.reverse :=
    List.takeWhile_append_dropWhile isPyWs u.reverse
  have hu2 : m.reverse ++ (u.reverse.takeWhile isPyWs).reverse = u := by
    have h3 := congrArg List.reverse hsplit
    rw [List.reverse_append, List.reverse_reverse] at h3
    exact h3
  have hne : m.reverse ≠ [] := by
    intro hnil
    rw [hnil] at h
    simp at h
  have hhead : u.head? = some a := by
    rw [← hu2, List.head?_append_of_ne_nil _ hne]
    exact h
  rw [hu] at hhead
  exact dropWhileHeadNot isPyWs l a hhead

theorem pyStripLast (l : List Char) (a : Char)
    (h : (pyStripList l).reverse.head? = some a) : isPyWs a = false := by
  unfold pyStripList at h
  rw [List.reverse_reverse] at h
  exact dropWhileHeadNot isPyWs _ a h

theorem pyStripFixed (l : List Char)
    (h1 : ∀ a, l.head? = some a → isPyWs a = false)
    (h2 : ∀ a, l.reverse.head? = some a → isPyWs a = false) :
    pyStripList l = l := by
  unfold pyStripList
  rw [dropWhileEqSelf _ l h1, dropWhileEqSelf _ l.reverse h2,
    List.reverse_reverse]

theorem pyStripIdem (l : List Char) :
    pyStripList (pyStripList l) = pyStripList l :=
  pyStripFixed _ (pyStripHead l) (pyStripLast l)

/-! ### C8: title derivation is idempotent -/

theorem titleListFixed (o : List Char) (hs : pyStripList o = o)
    (hne : o ≠ []) (hlen : o.length ≤ 50) : titleList o = o := by
  simp only [titleList]
  rw [hs, if_neg (by omega : ¬ 50 < o.length), if_neg hne,
    if_neg (by omega : ¬ 255 < o.length)]

theorem titleListConditions (l : List Char) :
    pyStripList (titleList l) = titleList l ∧ titleList l ≠ [] ∧
      (titleList l).length ≤ 50 := by
  simp only [titleList]
  by_cases h50 : 50 < (pyStripList l).length
  · rw [if_pos h50]
    have htake : ((pyStripList l).take 47).length = 47 := by
      rw [List.length_take 47 (pyStripList l)]
      omega
    have holen : ((pyStripList l).take 47 ++ ['.', '.', '.']).length = 50 := by
      simp [htake]
    have hone : (pyStripList l).take 47 ++ ['.', '.', '.'] ≠ [] := by
      intro hnil
      rw [hnil] at holen
      simp at holen
    rw [if_neg hone,
      if_neg (by rw [holen]; omega :
        ¬ 255 < ((pyStripList l).take 47 ++ ['.', '.', '.']).length)]
    refine ⟨?_, hone, by omega⟩
    apply pyStripFixed
    · intro a ha
      have htne : (pyStripList l).take 47 ≠ [] := by
        intro hnil
        rw [hnil] at htake
        simp at htake
      rw [List.head?_append_of_ne_nil _ htne] at ha
      have hth : (pyStripList l).head? = some a := by
        cases ht : pyStripList l with
        | nil => rw [ht] at htake; simp at htake
        | cons b bs =>
          rw [ht] at ha
          simpa [List.take] using ha
      exact pyStripHead l a hth
    · intro a ha
      rw [List.reverse_append] at ha
      simp only [List.reverse_cons, List.reverse_nil, List.nil_append,
        List.cons_append, List.head?_cons, Option.some.injEq] at ha
      subst ha
      decide
  · rw [if_neg h50]
    by_cases hE : pyStripList l = []
    · rw [if_pos hE, if_neg (by decide : ¬ 255 < ("New Conversation".data).length)]
      refine ⟨by decide, by decide, by decide⟩
    · rw [if_neg hE, if_neg (by omega : ¬ 255 < (pyStripList l).length)]
      exact ⟨pyStripIdem l, hE, by omega⟩

theorem titleListIdem (l : List Char) :
    titleList (titleList l) = titleList l := by
  obtain ⟨h1, h2, h3⟩ := titleListConditions l
  exact titleListFixed _ h1 h2 h3

/-- Claim C8: conversation title derivation is idempotent — for every
input string `x`, `generate_conversation_title
(generate_conversation_title x) = generate_conversation_title x`, where
the function trims whitespace, truncates inputs longer than 50 characters
to a 47-character prefix plus `...`, and falls back to
`New Conversation` for empty input. -/
theorem c8_generate_conversation_title_idem (x : String) :
    generate_conversation_title (generate_conversation_title x) =
      generate_conversation_title x := by
  unfold generate_conversation_title
  exact congrArg String.mk (titleListIdem x.data)

/-! ### C9: `get_logs` output shape -/

/-- Claim C9: for every combination of captured stdout, stderr and log
buffer contents, `get_logs` returns the sections `STDOUT:`, `STDERR:`,
`LOGS:` in that order joined by blank lines, omitting every empty
section, and the empty string when all three are empty
(`getLogsSpecForm` spells this out case by case). -/
theorem c9_get_logs_sections (s e l : String) :
    get_logs s e l = getLogsSpecForm s e l := by
  unfold get_logs getLogsSpecForm
  by_cases hs : s = "" <;> by_cases he : e = "" <;> by_cases hl : l = "" <;>
    simp [hs, he, hl, pyJoin, String.append_assoc]

/-! ### C5: user-message dedupe within five seconds -/

/-- Claim C5: when the user-message save runs for a conversation whose
most recent stored user message has the same content as the last user
message of the request and age strictly under 5 seconds, no new row is
inserted (the message list is unchanged) and the existing row's id is
reused, so two identical submissions within 5 seconds add at most one
user row. -/
theorem c5_user_message_dedupe (convId : Nat) (reqMessages : List ReqMsg)
    (existing : List StoredMsg) (now : ℚ) (freshId : Nat)
    (m : ReqMsg) (lastSaved : StoredMsg)
    (hreq : lastUserMsg reqMessages = some m)
    (hlast : (existing.filter (fun msg => msg.role = "user")).getLast? =
      some lastSaved)
    (hcontent : lastSaved.content = m.content)
    (hage : now - lastSaved.createdAt < 5) :
    save_user_messages (some convId) true reqMessages existing now freshId =
      (some lastSaved.id, existing) := by
  unfold save_user_messages
  simp only [hreq, hlast, Bool.not_true, Bool.false_eq_true, if_false]
  rw [if_pos ⟨hcontent, hage⟩]

/-- Witness for C5 at a concrete conversation state. -/
theorem c5_user_message_dedupe_witness :
    save_user_messages (some 1) true [⟨"user", "hi"⟩]
        [⟨7, "user", "hi", none, 0⟩] 3 9 =
      (some 7, [⟨7, "user", "hi", none, 0⟩]) :=
  c5_user_message_dedupe 1 [⟨"user", "hi"⟩] [⟨7, "user", "hi", none, 0⟩] 3 9
    ⟨"user", "hi"⟩ ⟨7, "user", "hi", none, 0⟩
    (by decide) (by decide) (by decide) (by norm_num)

/-! ### C6: assistant-message dedupe per (content, model) -/

/-- Claim C6: saving an assistant message inserts a new row only when no
existing message of the conversation has role `assistant` with identical
content and identical model; otherwise the existing row's id is returned
and the list is unchanged — hence at most one assistant message per
(content, model) tuple is preserved. -/
theorem c6_assistant_message_dedupe (convId : Nat)
    (content modelName : String) (existing : List StoredMsg)
    (now : ℚ) (freshId : Nat) (hc : content ≠ "") :
    (∀ msg, existing.find? (assistantDup content modelName) = some msg →
      save_assistant_message_if_new (some convId) true content modelName
          existing now freshId = (some msg.id, existing)) ∧
    (existing.find? (assistantDup content modelName) = none →
      save_assistant_message_if_new (some convId) true content modelName
          existing now freshId =
        (some freshId,
         existing ++ [⟨freshId, "assistant", content, some modelName, now⟩])) ∧
    (atMostOneAssistantPer existing →
      atMostOneAssistantPer
        (save_assistant_message_if_new (some convId) true content modelName
          existing now freshId).2) := by
  have hguard : ¬((some convId : Option Nat) = none ∨ content = "") := by
    simp [hc]
  refine ⟨?_, ?_, ?_⟩
  · intro msg hfind
    unfold save_assistant_message_if_new
    rw [if_neg hguard]
    simp [hfind]
  · intro hfind
    unfold save_assistant_message_if_new
    rw [if_neg hguard]
    simp [hfind]
  · intro hinv
    unfold save_assistant_message_if_new
    rw [if_neg hguard]
    cases hfind : existing.find? (assistantDup content modelName) with
    | some msg => simpa using hinv
    | none =>
      simp only [Bool.not_true, Bool.false_eq_true, if_false]
      intro c m
      rw [List.countP_append, List.countP_cons, List.countP_nil]
      by_cases hp : ((fun msg => msg.role = "assistant" &&
          msg.content = c && msg.model = m)
            (⟨freshId, "assistant", content, some modelName, now⟩ :
              StoredMsg)) = true
      · have hc2 : content = c ∧ some modelName = m := by
          simpa using hp
        have hzero : existing.countP (fun msg =>
            msg.role = "assistant" && msg.content = c &&
              msg.model = m) = 0 := by
          rw [List.countP_eq_zero]
          intro a ha
          have hfa := List.find?_eq_none.mp hfind a ha
          intro hcontra
          apply hfa
          unfold assistantDup
          rw [hc2.1, hc2.2]
          exact hcontra
        rw [hzero, if_pos hp]
      · rw [if_neg hp]
        have := hinv c m
        omega

/-- Witness for C6 at a concrete conversation state. -/
theorem c6_assistant_message_dedupe_witness :
    save_assistant_message_if_new (some 1) true "hello" "m1" [] 0 5 =
      (some 5, [⟨5, "assistant", "hello", some "m1", 0⟩]) :=
  (c6_assistant_message_dedupe 1 "hello" "m1" [] 0 5 (by decide)).2.1 rfl

/-! ### C2: missing credentials yield 401 with detail and request id -/

/-- Claim C2: every non-OPTIONS request whose path is outside the public
set and that carries neither an `Authorization: Bearer` header nor an
`X-API-Key` header is answered by the middleware itself with status 401
(`AUTH_HEADER_MISSING`) and a body holding `detail` and `request_id`;
the route handler is not invoked (the result is a `.response`, never
`.next`). -/
theorem c2_missing_credentials_401 (req : HttpRequest)
    (apiVerify jwtVerify : VerifyCallResult)
    (hm : req.method ≠ "OPTIONS")
    (hp : req.path ∉ PUBLIC_ROUTES)
    (hk : req.xApiKey = none)
    (ha : ∀ a, req.authorization = some a →
      a.startsWith "Bearer " = false) :
    dispatch req apiVerify jwtVerify =
      .response 401
        [("detail", AUTH_HEADER_MISSING), ("request_id", req.requestId)] := by
  unfold dispatch
  rw [if_neg hm, if_neg hp]
  cases hauth : req.authorization with
  | none => simp [hk, hauth]
  | some a =>
    have hb := ha a hauth
    simp [hk, hauth, hb]

/-- Witness for C2: a GET to a protected path with no credentials. -/
theorem c2_missing_credentials_401_witness :
    dispatch ⟨"GET", "/chat/conversations", none, none, "r1"⟩
        (.ok none) (.ok none) =
      .response 401
        [("detail", AUTH_HEADER_MISSING), ("request_id", "r1")] :=
  c2_missing_credentials_401 ⟨"GET", "/chat/conversations", none, none, "r1"⟩
    (.ok none) (.ok none) (by decide) (by decide) rfl
    (fun a h => by cases h)

/-! ### C7: persistence verification succeeds iff observable -/

theorem verifyLoopSpec (reads : Nat → StoreRead) :
    ∀ (k i : Nat), verifyLoop reads i k = true ↔
      ∃ j, j < k ∧ reads (i + j) = .found := by
  intro k
  induction k with
  | zero =>
    intro i
    simp [verifyLoop]
  | succ n ih =>
    intro i
    unfold verifyLoop
    cases hr : reads i with
    | found =>
      simp only [true_iff]
      exact ⟨0, by omega, by simpa using hr⟩
    | notFound =>
      rw [ih (i + 1)]
      constructor
      · rintro ⟨j, hj, hfound⟩
        exact ⟨j + 1, by omega, by rw [show i + (j + 1) = i + 1 + j by omega]; exact hfound⟩
      · rintro ⟨j, hj, hfound⟩
        cases j with
        | zero => rw [Nat.add_zero] at hfound; rw [hfound] at hr; cases hr
        | succ j' =>
          exact ⟨j', by omega, by rw [show i + 1 + j' = i + (j' + 1) by omega]; exact hfound⟩
    | readErr =>
      rw [ih (i + 1)]
      constructor
      · rintro ⟨j, hj, hfound⟩
        exact ⟨j + 1, by omega, by rw [show i + (j + 1) = i + 1 + j by omega]; exact hfound⟩
      · rintro ⟨j, hj, hfound⟩
        cases j with
        | zero => rw [Nat.add_zero] at hfound; rw [hfound] at hr; cases hr
        | succ j' =>
          exact ⟨j', by omega, by rw [show i + 1 + j' = i + (j' + 1) by omega]; exact hfound⟩

/-- Claim C7: with the scheduler running, `verify_job_persistence` (with
its default of `JOB_PERSISTENCE_VERIFY_MAX_RETRIES = 5` store re-reads)
returns successfully iff one of the five scheduler reads finds the job or
the raw store table contains its id; in every other case it raises
(`RuntimeError`).  Hence a successful `add_*` implies the job is
observable in the scheduler or in the raw store table. -/
theorem c7_verify_job_persistence_iff (running : Bool)
    (reads : Nat → StoreRead) (dbRead : Option (List String))
    (jobId : String) (hr : running = true) :
    verify_job_persistence running reads dbRead jobId
        JOB_PERSISTENCE_VERIFY_MAX_RETRIES = .ok () ↔
      (∃ j, j < JOB_PERSISTENCE_VERIFY_MAX_RETRIES ∧ reads j = .found) ∨
        (∃ ids, dbRead = some ids ∧ jobId ∈ ids) := by
  subst hr
  unfold verify_job_persistence
  simp only [Bool.not_true, Bool.false_eq_true, if_false]
  by_cases hl : verifyLoop reads 0 JOB_PERSISTENCE_VERIFY_MAX_RETRIES = true
  · rw [if_pos hl]
    simp only [true_iff]
    left
    obtain ⟨j, hj, hf⟩ := (verifyLoopSpec reads _ 0).mp hl
    exact ⟨j, hj, by simpa using hf⟩
  · rw [if_neg hl]
    have hnone : ¬ ∃ j, j < JOB_PERSISTENCE_VERIFY_MAX_RETRIES ∧
        reads j = .found := by
      intro ⟨j, hj, hf⟩
      exact hl ((verifyLoopSpec reads _ 0).mpr ⟨j, hj, by simpa using hf⟩)
    cases dbRead with
    | none =>
      simp only [reduceCtorEq, false_iff]
      rintro (h | ⟨ids, hids, _⟩)
      · exact hnone h
      · cases hids
    | some ids =>
      by_cases hmem : jobId ∈ ids
      · simp [hmem]
      · simp only [hmem, if_false, reduceCtorEq, false_iff]
        rintro (h | ⟨ids', hids', hmem'⟩)
        · exact hnone h
        · cases hids'
          exact hmem hmem'

/-- Witness for C7: the third scheduler read finds the job. -/
theorem c7_verify_job_persistence_iff_witness :
    verify_job_persistence true
        (fun n => if n = 2 then .found else .notFound) (some []) "j1"
        JOB_PERSISTENCE_VERIFY_MAX_RETRIES = .ok () :=
  (c7_verify_job_persistence_iff true
      (fun n => if n = 2 then .found else .notFound) (some []) "j1" rfl).mpr
    (.inl ⟨2, by decide, by decide⟩)


/-! ### JWKS cache lemmas (for C4 and C10) -/

theorem fetchAndUpdateFetched (now ttl : Int) (st : JwksCacheState)
    (fetch : FetchOutcome) : (fetchAndUpdate now ttl st fetch).2.2 = true := by
  cases fetch with
  | transportErr => rfl
  | ok doc =>
    cases doc with
    | nonObj => rfl
    | obj keys =>
      rw [fetchAndUpdate]
      split <;> rfl

theorem getJwksFetched (f : Bool) (now ttl : Int) (fetch : FetchOutcome)
    (st : JwksCacheState) :
    (get_jwks f now ttl fetch st).2.2 = !(!f && is_cache_valid st now) := by
  unfold get_jwks
  cases hc : st.cache with
  | none =>
    simp only []
    rw [fetchAndUpdateFetched]
    have hv : is_cache_valid st now = false := by
      unfold is_cache_valid
      rw [hc]
    rw [hv]
    simp
  | some d =>
    simp only []
    by_cases hcond : (!f && is_cache_valid st now) = true
    · rw [if_pos hcond, hcond]
      rfl
    · rw [if_neg hcond, fetchAndUpdateFetched,
        Bool.eq_false_iff.mpr hcond]
      rfl

theorem validIsSome (st : JwksCacheState) (now : Int)
    (h : is_cache_valid st now = true) : st.cache.isSome = true := by
  unfold is_cache_valid at h
  cases hc : st.cache with
  | none => rw [hc] at h; simp at h
  | some _ => simp

theorem scanKeysMem (kid x : String) (hk : kid ≠ "") :
    ∀ keys, scanKeys kid keys = .ok x → kid ∈ extractKids keys := by
  intro keys
  induction keys with
  | nil => intro h; simp [scanKeys] at h
  | cons e rest ih =>
    intro h
    cases e with
    | nonObj => simp [scanKeys] at h
    | obj d =>
      rw [scanKeys] at h
      by_cases hcond :
          (d.kid = some kid && d.kty = "OKP" && d.crv = "Ed25519") = true
      · have hkid : d.kid = some kid := by
          simp only [Bool.and_eq_true, decide_eq_true_eq] at hcond
          exact hcond.1.1
        unfold extractKids
        rw [List.mem_filterMap]
        exact ⟨.obj d, List.mem_cons_self _ _, by simp [kidOf, hkid, hk]⟩
      · rw [if_neg hcond] at h
        have hmem := ih h
        unfold extractKids at hmem ⊢
        rw [List.mem_filterMap] at hmem ⊢
        obtain ⟨a, ha, hfa⟩ := hmem
        exact ⟨a, List.mem_cons_of_mem _ ha, hfa⟩

theorem fetchAndUpdateOk (now ttl : Int) (st st' : JwksCacheState)
    (fetch : FetchOutcome) (doc : JwksDoc) (fetched : Bool)
    (h : fetchAndUpdate now ttl st fetch = (.ok doc, st', fetched)) :
    ∃ keys, doc = .obj keys ∧ st'.cachedKids = extractKids keys := by
  cases fetch with
  | transportErr => simp [fetchAndUpdate] at h
  | ok d0 =>
    cases d0 with
    | nonObj => simp [fetchAndUpdate] at h
    | obj keys =>
      rw [fetchAndUpdate] at h
      by_cases hw : entriesWellFormed keys = true
      · rw [if_pos hw] at h
        simp only [Prod.mk.injEq, Except.ok.injEq] at h
        refine ⟨keys, h.1.symm, ?_⟩
        rw [← h.2.1]
      · rw [if_neg hw] at h
        simp at h

theorem getJwksOk (f : Bool) (now ttl : Int) (fetch : FetchOutcome)
    (st st' : JwksCacheState) (doc : JwksDoc) (fetched : Bool)
    (h : get_jwks f now ttl fetch st = (.ok doc, st', fetched)) :
    (st' = st ∧ st.cache = some doc ∧ f = false ∧
      is_cache_valid st now = true) ∨
    (∃ keys, doc = .obj keys ∧ st'.cachedKids = extractKids keys) := by
  unfold get_jwks at h
  cases hc : st.cache with
  | some d =>
    rw [hc] at h
    simp only [] at h
    by_cases hcond : (!f && is_cache_valid st now) = true
    · rw [if_pos hcond] at h
      simp only [Prod.mk.injEq, Except.ok.injEq] at h
      simp only [Bool.and_eq_true, Bool.not_eq_true'] at hcond
      exact .inl ⟨h.2.1.symm, by rw [← h.1], hcond.1, hcond.2⟩
    · rw [if_neg hcond] at h
      exact .inr (fetchAndUpdateOk now ttl st st' fetch doc fetched h)
  | none =>
    rw [hc] at h
    simp only [] at h
    exact .inr (fetchAndUpdateOk now ttl st st' fetch doc fetched h)

theorem fetchAndUpdateErr (now ttl : Int) (st st' : JwksCacheState)
    (fetch : FetchOutcome) (e : Unit) (fetched : Bool)
    (h : fetchAndUpdate now ttl st fetch = (.error e, st', fetched)) :
    st'.cachedKids = st.cachedKids ∧ st'.expiresAt = st.expiresAt ∧
      (fetch = .transportErr → st' = st) := by
  cases fetch with
  | transportErr =>
    rw [fetchAndUpdate] at h
    simp only [Prod.mk.injEq] at h
    exact ⟨by rw [← h.2.1], by rw [← h.2.1], fun _ => h.2.1.symm⟩
  | ok d0 =>
    cases d0 with
    | nonObj =>
      rw [fetchAndUpdate] at h
      simp only [Prod.mk.injEq] at h
      exact ⟨by rw [← h.2.1], by rw [← h.2.1], fun hcontra => by cases hcontra⟩
    | obj keys =>
      rw [fetchAndUpdate] at h
      by_cases hw : entriesWellFormed keys = true
      · rw [if_pos hw] at h
        simp at h
      · rw [if_neg hw] at h
        simp only [Prod.mk.injEq] at h
        exact ⟨by rw [← h.2.1], by rw [← h.2.1], fun hcontra => by cases hcontra⟩

theorem getJwksErr (f : Bool) (now ttl : Int) (fetch : FetchOutcome)
    (st st' : JwksCacheState) (e : Unit) (fetched : Bool)
    (h : get_jwks f now ttl fetch st = (.error e, st', fetched)) :
    st'.cachedKids = st.cachedKids ∧ st'.expiresAt = st.expiresAt ∧
      (fetch = .transportErr → st' = st) := by
  unfold get_jwks at h
  cases hc : st.cache with
  | some d =>
    rw [hc] at h
    simp only [] at h
    by_cases hcond : (!f && is_cache_valid st now) = true
    · rw [if_pos hcond] at h
      simp at h
    · rw [if_neg hcond] at h
      exact fetchAndUpdateErr now ttl st st' fetch e fetched h
  | none =>
    rw [hc] at h
    simp only [] at h
    exact fetchAndUpdateErr now ttl st st' fetch e fetched h

/-! ### C4: refresh discipline of JWT verification -/

/-- Claim C4: for a token whose header carries a (non-empty) kid `K`,
whenever `verify_token_string` succeeds the cache's kid set contains `K`
at return; and a JWKS fetch is performed during the verification exactly
when the cache was expired or `K` was not among the cached kids at the
start — never zero fetches on a miss and never a fetch on a hit (the
structure of `get_jwks` permits at most one fetch per call). -/
theorem c4_jwks_refresh_discipline (kid : String) (now ttl : Int)
    (fetch : FetchOutcome) (sigOk : Bool) (st : JwksCacheState)
    (res : VerifyResult) (st2 : JwksCacheState) (fb : Bool)
    (hk : kid ≠ "")
    (hrun : verify_token_string (some kid) now ttl fetch sigOk st =
      (res, st2, fb)) :
    (∀ x, res = .ok x → kid ∈ st2.cachedKids) ∧
      fb = !(is_cache_valid st now && st.cachedKids.contains kid) := by
  simp only [verify_token_string] at hrun
  rw [if_neg hk] at hrun
  have h1 := congrArg Prod.fst hrun
  have h2 := congrArg (fun p => p.2.1) hrun
  have h3 := congrArg (fun p => p.2.2) hrun
  simp only [] at h1 h2 h3
  constructor
  · intro x hx
    rw [hx] at h1
    cases hr1 : (get_jwks (!is_cache_valid st now ||
        (st.cache.isSome && !st.cachedKids.contains kid))
          now ttl fetch st).1 with
    | error e => rw [hr1] at h1; simp at h1
    | ok doc =>
      rw [hr1] at h1
      simp only [] at h1
      have hfull : get_jwks (!is_cache_valid st now ||
          (st.cache.isSome && !st.cachedKids.contains kid)) now ttl fetch st =
            (.ok doc, st2, fb) := by
        rw [← hr1, ← h2, ← h3]
      have hcase := getJwksOk _ now ttl fetch st st2 doc fb hfull
      cases hkl : get_public_key_from_jwks doc kid with
      | keyNotFound => rw [hkl] at h1; simp at h1
      | attrError => rw [hkl] at h1; simp at h1
      | ok x0 =>
        rcases hcase with ⟨hst, hcache, hF, hv⟩ | ⟨keys, hdoc, hkids⟩
        · rw [hst]
          have hsome := validIsSome st now hv
          have hcont : st.cachedKids.contains kid = true := by
            cases hcnt : st.cachedKids.contains kid
            · rw [hsome, hcnt, hv] at hF
              simp at hF
            · rfl
          exact List.mem_of_elem_eq_true hcont
        · subst hdoc
          simp only [get_public_key_from_jwks] at hkl
          rw [hkids]
          exact scanKeysMem kid x0 hk keys hkl
  · rw [← h3, getJwksFetched]
    cases hv : is_cache_valid st now
    · simp [hv]
    · have hsome := validIsSome st now hv
      cases hcont : st.cachedKids.contains kid <;> simp [hv, hsome, hcont]

/-- Witness for C4: an empty cache, one fetch returning a document with
kid `K1`, successful signature check. -/
theorem c4_jwks_refresh_discipline_witness :
    "K1" ∈ (⟨some (.obj [.obj ⟨some "K1", "OKP", "Ed25519", "xb"⟩]),
        ["K1"], some 3600⟩ : JwksCacheState).cachedKids :=
  (c4_jwks_refresh_discipline "K1" 0 3600
      (.ok (.obj [.obj ⟨some "K1", "OKP", "Ed25519", "xb"⟩])) true
      ⟨none, [], none⟩ (.ok "xb")
      ⟨some (.obj [.obj ⟨some "K1", "OKP", "Ed25519", "xb"⟩]), ["K1"],
        some 3600⟩ true
      (by decide) (by decide)).1 "xb" rfl

/-! ### C10: cache state on a failed JWKS fetch -/

/-- Counterexample to claim C10 as stated: a fetch whose HTTP and JSON
stages succeed but whose document is a JSON object with a non-object
entry in `keys` makes `get_jwks` raise `JWKSError` *after*
`_jwks_cache = jwks_data` has run: the call fails, yet the cached JWKS
document has changed. -/
theorem c10_cache_update_on_error_counterexample :
    (get_jwks true 0 3600 (.ok (.obj [.nonObj]))
        ⟨some (.obj []), ["k1"], some 100⟩).1 = .error () ∧
    (get_jwks true 0 3600 (.ok (.obj [.nonObj]))
        ⟨some (.obj []), ["k1"], some 100⟩).2.1.cache ≠
      (⟨some (.obj []), ["k1"], some 100⟩ : JwksCacheState).cache :=
  ⟨rfl, by decide⟩

/-- Claim C10, amended: on every failed `get_jwks` call the cached kid
set and the expiry timestamp are unchanged, and on an HTTP transport
error the whole cache state (including the document) is unchanged; but
when the fetched document itself is malformed (a non-object, or a
non-object entry in `keys`), `_jwks_cache` has already been replaced by
the fetched document when `JWKSError` is raised. -/
theorem c10_jwks_error_cache_amended (f : Bool) (now ttl : Int)
    (fetch : FetchOutcome) (st st' : JwksCacheState) (e : Unit)
    (fetched : Bool)
    (h : get_jwks f now ttl fetch st = (.error e, st', fetched)) :
    st'.cachedKids = st.cachedKids ∧ st'.expiresAt = st.expiresAt ∧
      (fetch = .transportErr → st' = st) ∧
      (∀ doc, fetch = .ok doc → st'.cache = some doc) := by
  obtain ⟨h1, h2, h3⟩ := getJwksErr f now ttl fetch st st' e fetched h
  refine ⟨h1, h2, h3, ?_⟩
  intro doc hdoc
  subst hdoc
  unfold get_jwks at h
  cases hc : st.cache with
  | some d =>
    rw [hc] at h
    simp only [] at h
    by_cases hcond : (!f && is_cache_valid st now) = true
    · rw [if_pos hcond] at h
      simp at h
    · rw [if_neg hcond] at h
      cases doc with
      | nonObj =>
        rw [fetchAndUpdate] at h
        simp only [Prod.mk.injEq] at h
        rw [← h.2.1]
      | obj keys =>
        rw [fetchAndUpdate] at h
        by_cases hw : entriesWellFormed keys = true
        · rw [if_pos hw] at h
          simp at h
        · rw [if_neg hw] at h
          simp only [Prod.mk.injEq] at h
          rw [← h.2.1]
  | none =>
    rw [hc] at h
    simp only [] at h
    cases doc with
    | nonObj =>
      rw [fetchAndUpdate] at h
      simp only [Prod.mk.injEq] at h
      rw [← h.2.1]
    | obj keys =>
      rw [fetchAndUpdate] at h
      by_cases hw : entriesWellFormed keys = true
      · rw [if_pos hw] at h
        simp at h
      · rw [if_neg hw] at h
        simp only [Prod.mk.injEq] at h
        rw [← h.2.1]

/-- Witness for the amended C10 at a transport error. -/
theorem c10_jwks_error_cache_amended_witness :
    (⟨some (.obj []), ["k1"], some 100⟩ : JwksCacheState).cachedKids =
      (⟨some (.obj []), ["k1"], some 100⟩ : JwksCacheState).cachedKids :=
  (c10_jwks_error_cache_amended true 0 3600 .transportErr
      ⟨some (.obj []), ["k1"], some 100⟩
      ⟨some (.obj []), ["k1"], some 100⟩ () true rfl).1

/-! ### C1: stream termination frames -/

theorem finalizeNoTerm (conv : Bool) (save : String → Option Nat)
    (userMessageId : Option Nat) (st : SState) :
    noTermFrames (finalizeStream conv save userMessageId st) = true := by
  simp only [finalizeStream]
  split <;> split <;> rfl

theorem noTermEndsFalse (l : List Frame) (h : noTermFrames l = true) :
    endsWithStopDone l = false := by
  unfold endsWithStopDone
  cases hr : l.reverse with
  | nil => rfl
  | cons a tail =>
    cases tail with
    | nil => rfl
    | cons b rest =>
      have hmem : a ∈ l := by
        rw [← List.mem_reverse, hr]
        exact List.mem_cons_self _ _
      have hterm := (List.all_eq_true.mp h) _ hmem
      simp only [Bool.and_eq_true, Bool.not_eq_true'] at hterm
      show (isDoneFrame a && isFinalFrame b) = false
      rw [hterm.2]
      rfl

theorem endsAfterAppend (pre : List Frame) (k : Nat) (m : String) :
    endsWithStopDone (pre ++ [Frame.finalC k m, Frame.doneMark]) = true := by
  unfold endsWithStopDone
  rw [List.reverse_append]
  rfl

theorem endsPrependKeeps (fs r : List Frame)
    (h : endsWithStopDone r = true) :
    endsWithStopDone (fs ++ r) = true := by
  unfold endsWithStopDone at h ⊢
  rw [List.reverse_append]
  cases hr : r.reverse with
  | nil => rw [hr] at h; exact Bool.noConfusion h
  | cons a tail =>
    cases tail with
    | nil => rw [hr] at h; exact Bool.noConfusion h
    | cons b rest => rw [hr] at h; exact h

theorem noTermAppend (l1 l2 : List Frame) (h1 : noTermFrames l1 = true)
    (h2 : noTermFrames l2 = true) : noTermFrames (l1 ++ l2) = true := by
  unfold noTermFrames at h1 h2 ⊢
  rw [List.all_append, h1, h2]
  rfl

theorem processChunkNotDone (conv : Bool) (save : String → Option Nat)
    (userMessageId : Option Nat) (model : String) (st : SState)
    (c : UpChunk) (hc : isDoneChunk c = false) :
    (processChunk conv save userMessageId model st c).1.sdone = st.sdone ∧
    noTermFrames (processChunk conv save userMessageId model st c).2 = true := by
  cases c with
  | notData => exact ⟨rfl, rfl⟩
  | blank => exact ⟨rfl, rfl⟩
  | malformed => exact ⟨rfl, rfl⟩
  | chunk content thinking done =>
    simp only [isDoneChunk] at hc
    subst hc
    simp only [processChunk, chunkAccum, chunkThinkFrames, chunkContentStep]
    by_cases h1 : contentTruthy content = true <;>
      by_cases h2 : thinkingTruthy thinking = true <;>
        simp [h1, h2, noTermFrames, isFinalFrame, isDoneFrame]

theorem handleCompletionSdone (conv : Bool) (save : String → Option Nat)
    (userMessageId : Option Nat) (st : SState) (model : String) :
    (handleStreamCompletion conv save userMessageId st model).1.sdone =
      st.sdone := by
  simp only [handleStreamCompletion]
  split <;> rfl

theorem endsWithHandleCompletion (a b : List Frame) (conv : Bool)
    (save : String → Option Nat) (userMessageId : Option Nat)
    (st : SState) (model : String) :
    endsWithStopDone (a ++ b ++
      (handleStreamCompletion conv save userMessageId st model).2) =
        true := by
  simp only [handleStreamCompletion]
  rw [← List.append_assoc]
  exact endsAfterAppend _ _ _

theorem processChunkDone (conv : Bool) (save : String → Option Nat)
    (userMessageId : Option Nat) (model : String) (st : SState)
    (content : String) (thinking : Option String) :
    (processChunk conv save userMessageId model st
      (.chunk content thinking true)).1.sdone = true ∧
    endsWithStopDone (processChunk conv save userMessageId model st
      (.chunk content thinking true)).2 = true := by
  constructor
  · show (handleStreamCompletion conv save userMessageId
      { (chunkContentStep (chunkAccum st content) content model).1 with
        sdone := true } model).1.sdone = true
    rw [handleCompletionSdone]
  · show endsWithStopDone
      (chunkThinkFrames (chunkAccum st content) thinking ++
        (chunkContentStep (chunkAccum st content) content model).2 ++
        (handleStreamCompletion conv save userMessageId
          { (chunkContentStep (chunkAccum st content) content model).1 with
            sdone := true } model).2) = true
    exact endsWithHandleCompletion _ _ _ _ _ _ _

theorem runStreamNoDone (conv : Bool) (save : String → Option Nat)
    (userMessageId : Option Nat) (model : String) :
    ∀ (chunks : List UpChunk) (st : SState), hasDone chunks = false →
      st.sdone = false →
      noTermFrames (runStream conv save userMessageId model st chunks) =
        true := by
  intro chunks
  induction chunks with
  | nil =>
    intro st _ _
    exact finalizeNoTerm conv save userMessageId st
  | cons c rest ih =>
    intro st hD hs
    have hDc : isDoneChunk c = false ∧ hasDone rest = false := by
      unfold hasDone at hD
      rw [List.any_cons] at hD
      simp only [Bool.or_eq_false_iff] at hD
      exact hD
    obtain ⟨hsd, hnt⟩ := processChunkNotDone conv save userMessageId model
      st c hDc.1
    rw [runStream]
    rw [show (processChunk conv save userMessageId model st c).1.sdone =
        false from hs ▸ hsd]
    simp only [Bool.false_eq_true, if_false]
    exact noTermAppend _ _ hnt (ih _ hDc.2 (hs ▸ hsd))

theorem runStreamDone (conv : Bool) (save : String → Option Nat)
    (userMessageId : Option Nat) (model : String) :
    ∀ (chunks : List UpChunk) (st : SState), hasDone chunks = true →
      st.sdone = false →
      endsWithStopDone (runStream conv save userMessageId model st chunks) =
        true := by
  intro chunks
  induction chunks with
  | nil => intro st hD _; simp [hasDone] at hD
  | cons c rest ih =>
    intro st hD hs
    cases hc : isDoneChunk c with
    | true =>
      obtain ⟨content, thinking, hceq⟩ :
          ∃ ct th, c = UpChunk.chunk ct th true := by
        cases c with
        | chunk ct th d =>
          cases d with
          | true => exact ⟨ct, th, rfl⟩
          | false => simp [isDoneChunk] at hc
        | notData => simp [isDoneChunk] at hc
        | blank => simp [isDoneChunk] at hc
        | malformed => simp [isDoneChunk] at hc
      subst hceq
      obtain ⟨hsd, hends⟩ := processChunkDone conv save userMessageId model
        st content thinking
      rw [runStream, hsd]
      simpa using hends
    | false =>
      have hDr : hasDone rest = true := by
        unfold hasDone at hD ⊢
        rw [List.any_cons, hc, Bool.false_or] at hD
        exact hD
      obtain ⟨hsd, _⟩ := processChunkNotDone conv save userMessageId model
        st c hc
      rw [runStream]
      rw [show (processChunk conv save userMessageId model st c).1.sdone =
          false from hs ▸ hsd]
      simp only [Bool.false_eq_true, if_false]
      exact endsPrependKeeps _ _ (ih _ hDr (hs ▸ hsd))

/-- Counterexample to claim C1 as stated: an upstream stream that ends
without ever sending a `done=true` chunk (here: the empty stream, a
plain upstream EOF).  The generator yields nothing at all — no
`finish_reason=stop` chunk, no `data: [DONE]`, and no error frame (no
code path of `generate_streaming_response` emits an in-band error
frame) — so the SSE output is silently truncated. -/
theorem c1_stream_termination_counterexample :
    generate_streaming_response false (fun _ => none) none "m" [] = [] ∧
    endsWithStopDone
      (generate_streaming_response false (fun _ => none) none "m" []) =
        false := by
  constructor <;> rfl

/-- Claim C1, amended: the SSE output ends with a `finish_reason=stop`
chunk immediately followed by `data: [DONE]` exactly when some upstream
chunk carries `done=true`; when the upstream ends without a `done`
chunk, no stop chunk and no `[DONE]` are emitted (the stream ends with
at most a `:message_ids` comment), and no error frame exists — the
stream is silently truncated. -/
theorem c1_stream_termination_amended (conv : Bool)
    (save : String → Option Nat) (userMessageId : Option Nat)
    (model : String) (chunks : List UpChunk) :
    endsWithStopDone
      (generate_streaming_response conv save userMessageId model chunks) =
      hasDone chunks := by
  unfold generate_streaming_response
  cases hD : hasDone chunks with
  | true => exact runStreamDone conv save userMessageId model chunks _ hD rfl
  | false =>
    exact noTermEndsFalse _
      (runStreamNoDone conv save userMessageId model chunks _ hD rfl)

/-! ### C3: no `misfired` history row is ever recorded -/

/-- Counterexample to claim C3 as stated: job `j1` is scheduled for 7200
seconds in the past (beyond the 3600-second grace), which
`_normalize_run_date` accepts with only a warning log; the scheduler's
missed-fire event has no registered listener (`setup_job_listeners`
registers only the executed and error listeners), so after creation and
the missed fire the history holds a single `created` row and no
`misfired` row exists. -/
theorem c3_misfired_history_counterexample :
    normalize_run_date (some (-7200)) 0 =
      (-7200, NormalizeLog.warnPastBeyondGrace) ∧
    (0 : ℚ) - (-7200) > JOB_MISFIRE_GRACE_TIME_SECONDS ∧
    historyOf [.apiCreate "j1", .eventMissed "j1"] =
      [("j1", JobHistoryStatus.created)] ∧
    ("j1", JobHistoryStatus.misfired) ∉
      historyOf [.apiCreate "j1", .eventMissed "j1"] := by
  refine ⟨?_, by norm_num [JOB_MISFIRE_GRACE_TIME_SECONDS], rfl, by decide⟩
  unfold normalize_run_date
  norm_num [JOB_MISFIRE_GRACE_TIME_SECONDS]

/-- Claim C3, amended: a one-time job whose `run_at` lies more than
`misfire_grace` in the past is still scheduled (only a warning is
logged), and when its fire is missed the job is not executed — but no
history row with status `misfired` is ever recorded: the repository
registers no missed-event listener and no code path writes
`JobHistoryStatus.misfired`, so every row of every reachable history has
a status other than `misfired`. -/
theorem c3_no_misfired_row_amended (actions : List HistoryAction)
    (r : String × JobHistoryStatus) (h : r ∈ historyOf actions) :
    r.2 ≠ JobHistoryStatus.misfired := by
  unfold historyOf at h
  rw [List.mem_flatMap] at h
  obtain ⟨a, _, hr⟩ := h
  cases a <;> simp_all [historyRowsFor]

/-- Witness for the amended C3 at a concrete history row. -/
theorem c3_no_misfired_row_amended_witness :
    (("j1", JobHistoryStatus.created) : String × JobHistoryStatus).2 ≠
      JobHistoryStatus.misfired :=
  c3_no_misfired_row_amended [.apiCreate "j1"] ("j1", .created) (by decide)
